import Mathlib

/-!
Formal model of the `netkit_cisco` discovery and version-parsing core.

The Lean definitions below are a shallow embedding of the Python sources:
  * `src/netkit_cisco/os.py`      — `IOSXEVersion`, `NXOSVersion`, `parse_version`
  * `src/netkit_cisco/storage.py` — `StorageInfo`
  * `src/netkit_cisco/device.py`  — `CiscoDevice._safe_get`, `CiscoDevice.auto_discovery`

Python strings are modelled as `List Char` (ASCII-faithful: the regexes'
`\d`, `[a-z]`, `[A-Z]`, `str.lower`, `str.strip` are modelled over ASCII).
Python's dynamically-typed values that flow through discovery (None, int,
str, list, dict) are modelled by the inductive `PyVal`; an exception that
escapes a statement is modelled with `Except PyErr` / an explicit outcome.
-/

/-- Python exception kinds that the modelled code can raise. -/
inductive PyErr where
  | typeError
  | valueError
  | attributeError
deriving DecidableEq

/-- A dictionary key / sequence index used in `_safe_get` paths: an int or a str. -/
inductive PyKey where
  | ki (n : Int)
  | ks (s : List Char)
deriving DecidableEq

/-- A Python value that can appear in the semi-structured command output
consumed by discovery: `None`, `int`, `str`, `list`, `dict`. -/
inductive PyVal where
  | vnone
  | vint (n : Int)
  | vstr (s : List Char)
  | vlist (xs : List PyVal)
  | vdict (entries : List (PyKey × PyVal))

/-- First-match association-list lookup, modelling `dict[key]`
(`Option.none` models a `KeyError`). -/
def dictLookup : List (PyKey × PyVal) → PyKey → Option PyVal
  | [], _ => Option.none
  | (k, v) :: rest, q => if k = q then some v else dictLookup rest q

/-- Python sequence indexing `xs[n]` with negative-index wraparound;
`Option.none` models an `IndexError`. -/
def pySeqGet {α : Type} (xs : List α) (n : Int) : Option α :=
  if 0 ≤ n then xs.get? n.toNat
  else if 0 ≤ n + xs.length then xs.get? (n + xs.length).toNat
  else Option.none

/-- One indexing step `current[index_key]`; `Option.none` models the
`KeyError` / `IndexError` / `TypeError` that `_safe_get` catches. -/
def pyIndex : PyVal → PyKey → Option PyVal
  | PyVal.vdict es, k => dictLookup es k
  | PyVal.vlist xs, PyKey.ki n => pySeqGet xs n
  | PyVal.vlist _, PyKey.ks _ => Option.none
  | PyVal.vstr s, PyKey.ki n => (pySeqGet s n).map (fun c => PyVal.vstr [c])
  | PyVal.vstr _, PyKey.ks _ => Option.none
  | PyVal.vnone, _ => Option.none
  | PyVal.vint _, _ => Option.none

/-- `CiscoDevice._safe_get` (device.py lines 167-194): walk `source` by each
step of the path; the first failing step returns `default` (the loop's
`except (KeyError, IndexError, TypeError): return default`). -/
def _safe_get (source : PyVal) (tuple_path : List PyKey) (default : PyVal) : PyVal :=
  match tuple_path with
  | [] => source
  | k :: rest =>
    match pyIndex source k with
    | Option.none => default
    | some v => _safe_get v rest default

/-- Direct successive indexing `source[k1][k2]...` with the exception
propagating (`Option.none`): the reference semantics `_safe_get` is
compared against. -/
def pyTraverse (source : PyVal) (path : List PyKey) : Option PyVal :=
  match path with
  | [] => some source
  | k :: rest =>
    match pyIndex source k with
    | Option.none => Option.none
    | some v => pyTraverse v rest

/-- `StorageInfo` (storage.py): `total_free_B` / `total_size_B` are `None`
until populated, modelled with `Option Int`. -/
structure StorageInfo where
  name : List Char
  total_free_B : Option Int
  total_size_B : Option Int

/-- `StorageInfo.has_space` (storage.py lines 18-28):
`self.total_free_B >= required_bytes`. In Python 3 `None >= int` raises
`TypeError`, hence the `Except`. -/
def StorageInfo.has_space (s : StorageInfo) (required_bytes : Int) : Except PyErr Bool :=
  match s.total_free_B with
  | Option.none => Except.error PyErr.typeError
  | some f => Except.ok (decide (required_bytes ≤ f))

/-- `InstallMode` (_enums.py). -/
inductive InstallMode where
  | INSTALL
  | BUNDLE
  | UNKNOWN
  | NA
deriving DecidableEq

/-- Numeric value of an ASCII digit. -/
def digitVal (c : Char) : Nat := c.toNat - '0'.toNat

/-- `int` of a captured all-digit group (decimal). -/
def digitsToNat (ds : List Char) : Nat :=
  ds.foldl (fun acc c => 10 * acc + digitVal c) 0

/-- Match the regex piece `(\d{1,2})` (greedy, deterministic here because
every following regex token is a non-digit): returns the captured value and
the rest of the input. -/
def matchD12 : List Char → Option (Nat × List Char)
  | c1 :: c2 :: rest =>
    if c1.isDigit then
      if c2.isDigit then some (10 * digitVal c1 + digitVal c2, rest)
      else some (digitVal c1, c2 :: rest)
    else Option.none
  | [c1] => if c1.isDigit then some (digitVal c1, []) else Option.none
  | [] => Option.none

/-- Match one literal character. -/
def matchChar (c : Char) : List Char → Option (List Char)
  | x :: rest => if x = c then some rest else Option.none
  | [] => Option.none

/-- Match the regex piece `(\d+)` (greedy, deterministic here because every
following regex token is a non-digit). -/
def matchD1p (s : List Char) : Option (Nat × List Char) :=
  let digs := s.takeWhile Char.isDigit
  if digs.isEmpty then Option.none
  else some (digitsToNat digs, s.dropWhile Char.isDigit)

/-- The IOS-XE regex `^(\d{1,2})\.(\d{1,2})\.(\d{1,2})([a-z])?$`
(os.py line 33): on a match, the captured (major, minor, patch,
rebuild-letter) groups, the letter group as `[]` when absent. -/
def iosxeMatch (s : List Char) : Option (Nat × Nat × Nat × List Char) := do
  let (ma, r1) ← matchD12 s
  let r2 ← matchChar '.' r1
  let (mi, r3) ← matchD12 r2
  let r4 ← matchChar '.' r3
  let (pa, r5) ← matchD12 r4
  match r5 with
  | [] => some (ma, mi, pa, [])
  | [c] => if 'a' ≤ c ∧ c ≤ 'z' then some (ma, mi, pa, [c]) else Option.none
  | _ => Option.none

/-- The NX-OS train-form regex `^(\d+)\.(\d+)\((\d+)\)(I\d)(?:\((\d+)\))?$`
(os.py line 95): captures (major, minor, maintenance, train, rebuild),
the rebuild group absent when the optional `(REBUILD)` part is missing.
Note the train group is the literal letter `I` followed by one digit. -/
def nxosTrainMatch (s : List Char) : Option (Nat × Nat × Nat × List Char × Option Nat) := do
  let (ma, r1) ← matchD1p s
  let r2 ← matchChar '.' r1
  let (mi, r3) ← matchD1p r2
  let r4 ← matchChar '(' r3
  let (mnt, r5) ← matchD1p r4
  let r6 ← matchChar ')' r5
  let r7 ← matchChar 'I' r6
  match r7 with
  | d :: r8 =>
    if d.isDigit then
      match r8 with
      | [] => some (ma, mi, mnt, ['I', d], Option.none)
      | _ => do
        let r9 ← matchChar '(' r8
        let (rb, r10) ← matchD1p r9
        let r11 ← matchChar ')' r10
        if r11.isEmpty then some (ma, mi, mnt, ['I', d], some rb) else Option.none
    else Option.none
  | [] => Option.none

/-- The NX-OS simple-form regex `^(\d+)\.(\d+)\((\d+)\)([A-Z])?$`
(os.py line 105): captures (major, minor, maintenance, suffix), the
suffix group as `[]` when absent. -/
def nxosSimpleMatch (s : List Char) : Option (Nat × Nat × Nat × List Char) := do
  let (ma, r1) ← matchD1p s
  let r2 ← matchChar '.' r1
  let (mi, r3) ← matchD1p r2
  let r4 ← matchChar '(' r3
  let (mnt, r5) ← matchD1p r4
  let r6 ← matchChar ')' r5
  match r6 with
  | [] => some (ma, mi, mnt, [])
  | [c] => if 'A' ≤ c ∧ c ≤ 'Z' then some (ma, mi, mnt, [c]) else Option.none
  | _ => Option.none

/-- `IOSXEVersion` (os.py lines 4-60). `family` is the constant "IOS-XE"
and is carried by the variant tag of `OSVersion` below. -/
structure IOSXEVersion where
  raw : List Char
  major : Nat
  minor : Nat
  patch : Nat
  rebuild_letter : List Char
  install_mode : InstallMode
deriving DecidableEq

/-- `IOSXEVersion.__init__` (os.py lines 21-38): fields default to zero /
empty, then are overwritten from the captured groups when the regex
matches. -/
def IOSXEVersion.init (raw : List Char) : IOSXEVersion :=
  match iosxeMatch raw with
  | some (ma, mi, pa, rl) => ⟨raw, ma, mi, pa, rl, InstallMode.UNKNOWN⟩
  | Option.none => ⟨raw, 0, 0, 0, [], InstallMode.UNKNOWN⟩

/-- `NXOSVersion` (os.py lines 63-131). -/
structure NXOSVersion where
  raw : List Char
  major : Nat
  minor : Nat
  maintenance : Nat
  train : List Char
  rebuild : Nat
  suffix : List Char
  install_mode : InstallMode
deriving DecidableEq

/-- `NXOSVersion.__init__` (os.py lines 83-111): the I-style train form is
tried first (its rebuild group defaulting to 0:
`int(value.group(5)) if value.group(5) else 0`), then the simple form;
on no match all fields stay zero/empty. -/
def NXOSVersion.init (raw : List Char) : NXOSVersion :=
  match nxosTrainMatch raw with
  | some (ma, mi, mnt, tr, rb) => ⟨raw, ma, mi, mnt, tr, rb.getD 0, [], InstallMode.NA⟩
  | Option.none =>
    match nxosSimpleMatch raw with
    | some (ma, mi, mnt, suf) => ⟨raw, ma, mi, mnt, [], 0, suf, InstallMode.NA⟩
    | Option.none => ⟨raw, 0, 0, 0, [], 0, [], InstallMode.NA⟩

/-- Python `str.strip()` over ASCII whitespace. -/
def pyStrip (s : List Char) : List Char :=
  ((s.dropWhile Char.isWhitespace).reverse.dropWhile Char.isWhitespace).reverse

/-- Python `str.lower()` over ASCII. -/
def pyLower (s : List Char) : List Char := s.map Char.toLower

/-- `IOSXEVersion.set_install_mode` (os.py lines 53-60):
`img = image_value.strip().lower()`, then classify by suffix. -/
def IOSXEVersion.set_install_mode (v : IOSXEVersion) (image_value : List Char) : IOSXEVersion :=
  let img := pyLower (pyStrip image_value)
  if List.isSuffixOf ".conf".data img then { v with install_mode := InstallMode.INSTALL }
  else if List.isSuffixOf ".bin".data img then { v with install_mode := InstallMode.BUNDLE }
  else { v with install_mode := InstallMode.UNKNOWN }

/-- `NXOSVersion.set_install_mode` (os.py lines 112-116): always sets
`NA`, never touching its argument. -/
def NXOSVersion.set_install_mode (v : NXOSVersion) (_image_value : List Char) : NXOSVersion :=
  { v with install_mode := InstallMode.NA }

/-- "Case-insensitive suffix" in the words of the spec, independent of the
code's strip-then-lower pipeline: lowercase both strings and test the
suffix. Used to state claims about the classifier. -/
def endsWithCI (s suf : List Char) : Bool :=
  List.isSuffixOf (pyLower suf) (pyLower s)

/-- The Python comparison of one component of a version tuple, as an
`Ordering`: `lt` / `gt` / `eq` by the component's `<`. -/
def natCmpP (a b : Nat) : Ordering :=
  if a < b then Ordering.lt else if b < a then Ordering.gt else Ordering.eq

/-- Python string comparison (lexicographic by code point), as an `Ordering`. -/
def strCmp : List Char → List Char → Ordering
  | [], [] => Ordering.eq
  | [], _ :: _ => Ordering.lt
  | _ :: _, [] => Ordering.gt
  | a :: as, b :: bs =>
    if a < b then Ordering.lt
    else if b < a then Ordering.gt
    else strCmp as bs

/-- Python tuple comparison: compare first components, then (on equality)
the rest — the semantics of `(x1, x2, ...) > (y1, y2, ...)` is
`prodCmp ... = .gt`. -/
def prodCmp {α β : Type} (f : α → α → Ordering) (g : β → β → Ordering)
    (x y : α × β) : Ordering :=
  (f x.1 y.1).then (g x.2 y.2)

/-- The ordered field tuple of os.py lines 50-51. -/
def IOSXEVersion.key (v : IOSXEVersion) : Nat × Nat × Nat × List Char :=
  (v.major, v.minor, v.patch, v.rebuild_letter)

/-- The comparator realizing Python's `>` on IOS-XE field tuples. -/
def iosxeCmp : (Nat × Nat × Nat × List Char) → (Nat × Nat × Nat × List Char) → Ordering :=
  prodCmp natCmpP (prodCmp natCmpP (prodCmp natCmpP strCmp))

/-- `IOSXEVersion.is_newer_than` (os.py lines 40-51):
`(self.major, self.minor, self.patch, self.rebuild_letter) > (other...)`. -/
def IOSXEVersion.is_newer_than (v other : IOSXEVersion) : Bool :=
  decide (iosxeCmp v.key other.key = Ordering.gt)

/-- The ordered field tuple of os.py lines 128-131. -/
def NXOSVersion.key (v : NXOSVersion) : Nat × Nat × Nat × List Char × Nat × List Char :=
  (v.major, v.minor, v.maintenance, v.train, v.rebuild, v.suffix)

/-- The comparator realizing Python's `>` on NX-OS field tuples. -/
def nxosCmp : (Nat × Nat × Nat × List Char × Nat × List Char) →
    (Nat × Nat × Nat × List Char × Nat × List Char) → Ordering :=
  prodCmp natCmpP (prodCmp natCmpP (prodCmp natCmpP (prodCmp strCmp
    (prodCmp natCmpP strCmp))))

/-- `NXOSVersion.is_newer_than` (os.py lines 118-131). -/
def NXOSVersion.is_newer_than (v other : NXOSVersion) : Bool :=
  decide (nxosCmp v.key other.key = Ordering.gt)

/-- The value `parse_version` dispatches over: either variant. -/
inductive OSVersion where
  | iosxe (v : IOSXEVersion)
  | nxos (v : NXOSVersion)
deriving DecidableEq

/-- The `major` attribute of either variant. -/
def OSVersion.major : OSVersion → Nat
  | OSVersion.iosxe v => v.major
  | OSVersion.nxos v => v.major

/-- The `family` attribute: the constant set in each `__init__`. -/
def OSVersion.family : OSVersion → List Char
  | OSVersion.iosxe _ => "IOS-XE".data
  | OSVersion.nxos _ => "NX-OS".data

/-- The `install_mode` attribute of either variant. -/
def OSVersion.install_mode : OSVersion → InstallMode
  | OSVersion.iosxe v => v.install_mode
  | OSVersion.nxos v => v.install_mode

/-- `parse_version` (os.py lines 134-149):
`for cls in (IOSXEVersion, NXOSVersion): obj = cls(raw); if obj.major != 0:
return obj` — first constructor whose result has nonzero major wins,
otherwise `None`. -/
def parse_version (raw : List Char) : Option OSVersion :=
  let x := IOSXEVersion.init raw
  if x.major ≠ 0 then some (OSVersion.iosxe x)
  else
    let n := NXOSVersion.init raw
    if n.major ≠ 0 then some (OSVersion.nxos n) else Option.none

/-- Python truthiness of a `PyVal` (`None`, `0`, empty str/list/dict are
falsy). -/
def pyTruthy : PyVal → Bool
  | PyVal.vnone => false
  | PyVal.vint n => decide (n ≠ 0)
  | PyVal.vstr s => !s.isEmpty
  | PyVal.vlist xs => !xs.isEmpty
  | PyVal.vdict es => !es.isEmpty

/-- Python `a or b`: `a` if truthy, else `b`. -/
def pyOr (a b : PyVal) : PyVal := if pyTruthy a then a else b

/-- `True` iff the value is a dict — `isinstance(record, dict)`. -/
def isDict : PyVal → Bool
  | PyVal.vdict _ => true
  | _ => false

/-- Digits of a Python int literal after the first digit: plain digits with
single underscores allowed between digits (as `int(str)` accepts). -/
def parseDigitsU : List Char → Nat → Option Nat
  | [], acc => some acc
  | ['_'], _ => Option.none
  | '_' :: c :: rest, acc =>
    if c.isDigit then parseDigitsU rest (10 * acc + digitVal c) else Option.none
  | c :: rest, acc =>
    if c.isDigit then parseDigitsU rest (10 * acc + digitVal c) else Option.none

/-- A nonempty digit run (first char must be a digit). -/
def parsePyIntDigits : List Char → Option Nat
  | c :: rest => if c.isDigit then parseDigitsU rest (digitVal c) else Option.none
  | [] => Option.none

/-- Python `int(str)`: strip whitespace, optional sign, decimal digits. -/
def parsePyInt (s : List Char) : Option Int :=
  match pyStrip s with
  | '+' :: rest => (parsePyIntDigits rest).map (fun n => (n : Int))
  | '-' :: rest => (parsePyIntDigits rest).map (fun n => -(n : Int))
  | rest => (parsePyIntDigits rest).map (fun n => (n : Int))

/-- Python `int(value)` on a discovery field value: ints pass through,
parseable strings convert, `None` and containers raise `TypeError`,
unparseable strings raise `ValueError`. -/
def pyIntOf : PyVal → Except PyErr Int
  | PyVal.vint n => Except.ok n
  | PyVal.vstr s =>
    match parsePyInt s with
    | some n => Except.ok n
    | Option.none => Except.error PyErr.valueError
  | _ => Except.error PyErr.typeError

/-- `value.split(":", 1)[0]` on a field value: the text before the first
colon (the whole string when there is none); a non-string has no `split`
method, raising `AttributeError`. -/
def pySplitColonHead : PyVal → Except PyErr (List Char)
  | PyVal.vstr s => Except.ok (s.takeWhile (fun c => c != ':'))
  | _ => Except.error PyErr.attributeError

/-- `self.os.set_install_mode(img)` with a dynamically-typed image value:
the IOS-XE variant calls `image_value.strip()`, raising `AttributeError`
on a non-string; the NX-OS variant never touches its argument. -/
def set_install_mode_py : OSVersion → PyVal → Except PyErr OSVersion
  | OSVersion.iosxe v, PyVal.vstr s => Except.ok (OSVersion.iosxe (v.set_install_mode s))
  | OSVersion.iosxe _, _ => Except.error PyErr.attributeError
  | OSVersion.nxos v, _ => Except.ok (OSVersion.nxos (v.set_install_mode []))

/-- The fact-snapshot fields of `CiscoDevice` that `auto_discovery`
populates. `os` and `storage` do not exist before their first assignment;
`Option.none` models unset-or-`None`. -/
structure DeviceState where
  hostname : PyVal
  config_register : PyVal
  model : PyVal
  serial : PyVal
  os : Option OSVersion
  storage : Option StorageInfo

/-- The snapshot state right after `CiscoDevice.__init__` with no
constructor arguments: every discovery-populated field absent. -/
def initDeviceState : DeviceState :=
  ⟨PyVal.vnone, PyVal.vnone, PyVal.vnone, PyVal.vnone, Option.none, Option.none⟩

/-- How one discovery run ends: normal completion, a logged stop
(an early `return` after `log_error`/`log_info`), or an uncaught
exception propagating to the caller. -/
inductive DiscOutcome where
  | completed
  | stopped
  | raised (e : PyErr)
deriving DecidableEq

/-- Result of the version half of `auto_discovery`: continue into the
storage half carrying the `self.os.family` string, stop early, or raise. -/
inductive StageResult where
  | proceed (st : DeviceState) (fam : List Char)
  | stop (st : DeviceState)
  | raise (st : DeviceState) (e : PyErr)

/-- `auto_discovery` lines 202-222: pick `raw[0]`, require a dict, assign
`hostname`/`config_register`/`model`/`serial` via `_safe_get` and `or`,
then `self.os = parse_version(record["os"] or record["version"])` and
`self.os.set_install_mode(record["running_image"] or record["boot_image"])`.
A non-string version value makes `re.match` raise `TypeError`; an
unparseable one leaves `self.os = None` so `set_install_mode` raises
`AttributeError`. `verRaw` is what `_run_command("show version")` returned
(that helper catches its own exceptions and returns `None`). -/
def versionStage (st : DeviceState) (verRaw : PyVal) : StageResult :=
  let record := _safe_get verRaw [PyKey.ki 0] PyVal.vnone
  match record with
  | PyVal.vdict _ =>
    let st1 : DeviceState :=
      { st with
        hostname := _safe_get record [PyKey.ks "hostname".data] PyVal.vnone
        config_register := _safe_get record [PyKey.ks "config_register".data] PyVal.vnone
        model := pyOr (_safe_get record [PyKey.ks "hardware".data, PyKey.ki 0] PyVal.vnone)
                      (_safe_get record [PyKey.ks "platform".data] PyVal.vnone)
        serial := pyOr (_safe_get record [PyKey.ks "serial".data, PyKey.ki 0] PyVal.vnone)
                       (_safe_get record [PyKey.ks "serial_number".data] PyVal.vnone) }
    let rawv := pyOr (_safe_get record [PyKey.ks "os".data] PyVal.vnone)
                     (_safe_get record [PyKey.ks "version".data] PyVal.vnone)
    match rawv with
    | PyVal.vstr s =>
      match parse_version s with
      | Option.none => StageResult.raise { st1 with os := Option.none } PyErr.attributeError
      | some v =>
        let img := pyOr (_safe_get record [PyKey.ks "running_image".data] (PyVal.vstr []))
                        (_safe_get record [PyKey.ks "boot_image".data] (PyVal.vstr []))
        match set_install_mode_py v img with
        | Except.error e => StageResult.raise { st1 with os := some v } e
        | Except.ok v2 => StageResult.proceed { st1 with os := some v2 } v2.family
    | _ => StageResult.raise st1 PyErr.typeError
  | _ => StageResult.stop st

/-- The argument tuple of the `StorageInfo(...)` call (device.py lines
254/256), evaluated left to right as Python does: the first raising
computation wins; when all three succeed, `self.storage` is assigned and
the run completes. -/
def buildStorage2 (st : DeviceState) (nm : Except PyErr (List Char))
    (free total : Except PyErr Int) : DeviceState × DiscOutcome :=
  match nm with
  | Except.error e => (st, DiscOutcome.raised e)
  | Except.ok name =>
    match free with
    | Except.error e => (st, DiscOutcome.raised e)
    | Except.ok f =>
      match total with
      | Except.error e => (st, DiscOutcome.raised e)
      | Except.ok t =>
        ({ st with storage := some ⟨name, some f, some t⟩ }, DiscOutcome.completed)

/-- device.py lines 249-256: the `isinstance(record, dict)` guard (a
non-dict stops the run), then the family-specific `StorageInfo`
construction with its unguarded `int(...)` coercions. -/
def buildStorage (st : DeviceState) (fam : List Char) (record : PyVal) :
    DeviceState × DiscOutcome :=
  match record with
  | PyVal.vdict _ =>
    if fam = "NX-OS".data then
      buildStorage2 st
        (pySplitColonHead (_safe_get record [PyKey.ks "usage".data] PyVal.vnone))
        (pyIntOf (_safe_get record [PyKey.ks "bytesfree".data] PyVal.vnone))
        (pyIntOf (_safe_get record [PyKey.ks "bytestotal".data] PyVal.vnone))
    else
      buildStorage2 st
        (pySplitColonHead (_safe_get record [PyKey.ks "file_system".data] PyVal.vnone))
        (pyIntOf (_safe_get record [PyKey.ks "total_free".data] PyVal.vnone))
        (pyIntOf (_safe_get record [PyKey.ks "total_size".data] PyVal.vnone))
  | _ => (st, DiscOutcome.stopped)

/-- `auto_discovery` lines 224-256 (the bootflash half): NX-OS decodes the
raw string response as JSON (`jsonLoads` models the external `json.loads`;
`Option.none` is a decode failure, and a non-string response fails on
`.strip()` — both are caught and logged, stopping the run); other families
take element 0 of the structured response. A non-dict record stops the run.
Then `StorageInfo` is built with the unguarded `int(...)` coercions, whose
errors propagate.  `storRaw` is what `_run_command("dir bootflash: ...")`
returned. -/
def storageStage (st : DeviceState) (fam : List Char) (storRaw : PyVal)
    (jsonLoads : List Char → Option PyVal) : DeviceState × DiscOutcome :=
  if fam = "NX-OS".data then
    match storRaw with
    | PyVal.vstr s =>
      match jsonLoads (pyStrip s) with
      | Option.none => (st, DiscOutcome.stopped)
      | some record => buildStorage st fam record
    | _ => (st, DiscOutcome.stopped)
  else
    buildStorage st fam (_safe_get storRaw [PyKey.ki 0] PyVal.vnone)

/-- `CiscoDevice.auto_discovery` (device.py lines 196-256): the version
half followed, when it succeeds, by the family-branched storage half. -/
def auto_discovery (st : DeviceState) (verRaw storRaw : PyVal)
    (jsonLoads : List Char → Option PyVal) : DeviceState × DiscOutcome :=
  match versionStage st verRaw with
  | StageResult.stop st1 => (st1, DiscOutcome.stopped)
  | StageResult.raise st1 e => (st1, DiscOutcome.raised e)
  | StageResult.proceed st1 fam => storageStage st1 fam storRaw jsonLoads

/-- Fixture: a well-formed IOS-XE `show version` record. -/
def verRecordIOS : PyVal :=
  PyVal.vlist [PyVal.vdict [
    (PyKey.ks "hostname".data, PyVal.vstr "R1".data),
    (PyKey.ks "version".data, PyVal.vstr "17.3.4a".data),
    (PyKey.ks "running_image".data, PyVal.vstr "packages.conf".data)]]

/-- Fixture: a well-formed NX-OS `show version` record. -/
def verRecordNX : PyVal :=
  PyVal.vlist [PyVal.vdict [
    (PyKey.ks "hostname".data, PyVal.vstr "N1".data),
    (PyKey.ks "os".data, PyVal.vstr "9.3(10)".data)]]

/-- The snapshot after the version half of a run over `verRecordIOS`. -/
def postVersionIOS (st : DeviceState) : DeviceState :=
  { st with
    hostname := PyVal.vstr "R1".data
    config_register := PyVal.vnone
    model := PyVal.vnone
    serial := PyVal.vnone
    os := some (OSVersion.iosxe
      ((IOSXEVersion.init "17.3.4a".data).set_install_mode "packages.conf".data)) }

/-- The snapshot after the version half of a run over `verRecordNX`. -/
def postVersionNX (st : DeviceState) : DeviceState :=
  { st with
    hostname := PyVal.vstr "N1".data
    config_register := PyVal.vnone
    model := PyVal.vnone
    serial := PyVal.vnone
    os := some (OSVersion.nxos ((NXOSVersion.init "9.3(10)".data).set_install_mode [])) }

/-- A comparator that behaves like Python's comparison on a type with a
total order: `eq` results coincide with equality, it is reflexive, and
`gt` results chain transitively. -/
def CmpLawful {α : Type} (cmp : α → α → Ordering) : Prop :=
  (∀ a b, cmp a b = Ordering.eq → a = b) ∧
  (∀ a, cmp a a = Ordering.eq) ∧
  (∀ a b c, cmp a b = Ordering.gt → cmp b c = Ordering.gt → cmp a c = Ordering.gt)

theorem ord_then_gt (o p : Ordering) :
    o.then p = Ordering.gt ↔ o = Ordering.gt ∨ (o = Ordering.eq ∧ p = Ordering.gt) := by
  cases o <;> simp [Ordering.then]

theorem ord_then_eq (o p : Ordering) :
    o.then p = Ordering.eq ↔ o = Ordering.eq ∧ p = Ordering.eq := by
  cases o <;> simp [Ordering.then]

theorem natCmpP_gt {a b : Nat} (h : natCmpP a b = Ordering.gt) : b < a := by
  by_cases h1 : a < b
  · rw [natCmpP, if_pos h1] at h
    exact Ordering.noConfusion h
  · by_cases h2 : b < a
    · exact h2
    · rw [natCmpP, if_neg h1, if_neg h2] at h
      exact Ordering.noConfusion h

theorem natCmpP_of_gt {a b : Nat} (h : b < a) : natCmpP a b = Ordering.gt := by
  have h1 : ¬ a < b := by omega
  rw [natCmpP, if_neg h1, if_pos h]

theorem natCmpP_lawful : CmpLawful natCmpP := by
  refine ⟨?_, ?_, ?_⟩
  · intro a b h
    by_cases h1 : a < b
    · rw [natCmpP, if_pos h1] at h
      exact Ordering.noConfusion h
    · by_cases h2 : b < a
      · rw [natCmpP, if_neg h1, if_pos h2] at h
        exact Ordering.noConfusion h
      · omega
  · intro a
    rw [natCmpP, if_neg (lt_irrefl a), if_neg (lt_irrefl a)]
  · intro a b c h1 h2
    exact natCmpP_of_gt (lt_trans (natCmpP_gt h2) (natCmpP_gt h1))

theorem strCmp_eq_imp : ∀ (a b : List Char), strCmp a b = Ordering.eq → a = b := by
  intro a
  induction a with
  | nil =>
    intro b h
    cases b with
    | nil => rfl
    | cons y ys => simp [strCmp] at h
  | cons x xs ih =>
    intro b h
    cases b with
    | nil => simp [strCmp] at h
    | cons y ys =>
      by_cases h1 : x < y
      · simp only [strCmp, if_pos h1] at h
        exact Ordering.noConfusion h
      · by_cases h2 : y < x
        · simp only [strCmp, if_neg h1, if_pos h2] at h
          exact Ordering.noConfusion h
        · simp only [strCmp, if_neg h1, if_neg h2] at h
          rw [le_antisymm (not_lt.mp h2) (not_lt.mp h1), ih ys h]

theorem strCmp_refl : ∀ a : List Char, strCmp a a = Ordering.eq := by
  intro a
  induction a with
  | nil => rfl
  | cons x xs ih =>
    simp only [strCmp, if_neg (lt_irrefl x)]
    exact ih

theorem strCmp_cons_gt {x y : Char} {xs ys : List Char}
    (h : strCmp (x :: xs) (y :: ys) = Ordering.gt) :
    y < x ∨ (x = y ∧ strCmp xs ys = Ordering.gt) := by
  by_cases h1 : x < y
  · simp only [strCmp, if_pos h1] at h
    exact Ordering.noConfusion h
  · by_cases h2 : y < x
    · exact Or.inl h2
    · simp only [strCmp, if_neg h1, if_neg h2] at h
      exact Or.inr ⟨le_antisymm (not_lt.mp h2) (not_lt.mp h1), h⟩

theorem strCmp_cons_gt_of_lt {x y : Char} (h : y < x) (xs ys : List Char) :
    strCmp (x :: xs) (y :: ys) = Ordering.gt := by
  simp only [strCmp, if_neg (lt_asymm h), if_pos h]

theorem strCmp_cons_gt_of_eq (x : Char) {xs ys : List Char}
    (h : strCmp xs ys = Ordering.gt) :
    strCmp (x :: xs) (x :: ys) = Ordering.gt := by
  simp only [strCmp, if_neg (lt_irrefl x)]
  exact h

theorem strCmp_gt_trans : ∀ (a b c : List Char),
    strCmp a b = Ordering.gt → strCmp b c = Ordering.gt → strCmp a c = Ordering.gt := by
  intro a
  induction a with
  | nil =>
    intro b c h1 _
    exfalso
    cases b <;> simp [strCmp] at h1
  | cons x xs ih =>
    intro b c h1 h2
    cases b with
    | nil =>
      exfalso
      cases c <;> simp [strCmp] at h2
    | cons y ys =>
      cases c with
      | nil => simp [strCmp]
      | cons z zs =>
        rcases strCmp_cons_gt h1 with hyx | ⟨hxy, hr1⟩
        · rcases strCmp_cons_gt h2 with hzy | ⟨hyz, hr2⟩
          · exact strCmp_cons_gt_of_lt (lt_trans hzy hyx) xs zs
          · exact strCmp_cons_gt_of_lt (hyz ▸ hyx) xs zs
        · rcases strCmp_cons_gt h2 with hzy | ⟨hyz, hr2⟩
          · exact hxy ▸ strCmp_cons_gt_of_lt hzy xs zs
          · subst hxy
            subst hyz
            exact strCmp_cons_gt_of_eq x (ih ys zs hr1 hr2)

theorem strCmp_lawful : CmpLawful strCmp :=
  ⟨strCmp_eq_imp, strCmp_refl, strCmp_gt_trans⟩

theorem prodCmp_lawful {α β : Type} {f : α → α → Ordering} {g : β → β → Ordering}
    (hf : CmpLawful f) (hg : CmpLawful g) : CmpLawful (prodCmp f g) := by
  obtain ⟨feq, frefl, ftr⟩ := hf
  obtain ⟨geq, grefl, gtr⟩ := hg
  refine ⟨?_, ?_, ?_⟩
  · rintro ⟨a1, a2⟩ ⟨b1, b2⟩ h
    simp only [prodCmp] at h
    rw [ord_then_eq] at h
    exact Prod.ext (feq _ _ h.1) (geq _ _ h.2)
  · rintro ⟨a1, a2⟩
    simp only [prodCmp]
    rw [frefl, grefl]
    rfl
  · rintro ⟨a1, a2⟩ ⟨b1, b2⟩ ⟨c1, c2⟩ h1 h2
    simp only [prodCmp] at h1 h2 ⊢
    rw [ord_then_gt] at h1 h2 ⊢
    rcases h1 with h1 | ⟨h1e, h1g⟩ <;> rcases h2 with h2 | ⟨h2e, h2g⟩
    · exact Or.inl (ftr _ _ _ h1 h2)
    · exact Or.inl ((feq _ _ h2e) ▸ h1)
    · refine Or.inl ?_
      rw [feq _ _ h1e]
      exact h2
    · refine Or.inr ⟨?_, gtr _ _ _ h1g h2g⟩
      rw [feq _ _ h1e]
      exact h2e

theorem iosxeCmp_lawful : CmpLawful iosxeCmp :=
  prodCmp_lawful natCmpP_lawful (prodCmp_lawful natCmpP_lawful
    (prodCmp_lawful natCmpP_lawful strCmp_lawful))

theorem nxosCmp_lawful : CmpLawful nxosCmp :=
  prodCmp_lawful natCmpP_lawful (prodCmp_lawful natCmpP_lawful
    (prodCmp_lawful natCmpP_lawful (prodCmp_lawful strCmp_lawful
      (prodCmp_lawful natCmpP_lawful strCmp_lawful))))

/-- C3: `_safe_get` round-trip: when every step of the path indexes
successfully, `_safe_get` returns exactly the directly-traversed value; when
any step fails, it returns the given default — for every source, path and
default value. -/
theorem safe_get_traversal_correct (path : List PyKey) (source default : PyVal) :
    (∀ v, pyTraverse source path = some v → _safe_get source path default = v) ∧
    (pyTraverse source path = Option.none → _safe_get source path default = default) := by
  induction path generalizing source with
  | nil =>
    refine ⟨fun v h => ?_, fun h => ?_⟩
    · simpa [pyTraverse, _safe_get] using h
    · simp [pyTraverse] at h
  | cons k rest ih =>
    cases h : pyIndex source k with
    | none =>
      refine ⟨fun v hv => ?_, fun _ => ?_⟩
      · simp [pyTraverse, h] at hv
      · simp [_safe_get, h]
    | some w =>
      refine ⟨fun v hv => ?_, fun hv => ?_⟩
      · simp only [pyTraverse, h] at hv
        simpa [_safe_get, h] using (ih w).1 v hv
      · simp only [pyTraverse, h] at hv
        simpa [_safe_get, h] using (ih w).2 hv

/-- Witness for C3 at a concrete nested structure: the path
`["a", 1]` exists in `{"a": [10, 20]}` and traversal agrees with
`_safe_get`; the path `["b", 0]` fails at the first step and `_safe_get`
returns the sentinel default `0`. -/
theorem safe_get_traversal_witness :
    _safe_get (PyVal.vdict [(PyKey.ks "a".data, PyVal.vlist [PyVal.vint 10, PyVal.vint 20])])
      [PyKey.ks "a".data, PyKey.ki 1] (PyVal.vint 0) = PyVal.vint 20 ∧
    _safe_get (PyVal.vdict [(PyKey.ks "a".data, PyVal.vlist [PyVal.vint 10, PyVal.vint 20])])
      [PyKey.ks "b".data, PyKey.ki 0] (PyVal.vint 0) = PyVal.vint 0 := by
  constructor
  · exact (safe_get_traversal_correct _ _ _).1 _ rfl
  · exact (safe_get_traversal_correct _ _ _).2 rfl

/-- C10: a `StorageInfo` whose `total_free_B` was left at its `None`
default makes `has_space` raise a `TypeError` rather than return a boolean;
the equivalence `has_space(n) = (total_free_B >= n)` holds exactly under
the precondition that `total_free_B` is a populated integer. -/
theorem has_space_none_type_error :
    (∀ (nm : List Char) (sz : Option Int) (n : Int),
       (StorageInfo.mk nm Option.none sz).has_space n = Except.error PyErr.typeError) ∧
    (∀ (s : StorageInfo) (f n : Int), s.total_free_B = some f →
       s.has_space n = Except.ok (decide (n ≤ f))) := by
  constructor
  · intro nm sz n; rfl
  · intro s f n h; simp [StorageInfo.has_space, h]

/-- Witness for C10: the default-constructed `StorageInfo("")` raises on
`has_space 5`, and a populated one with 1000000 free bytes reports space
for exactly 1000000 required bytes. -/
theorem has_space_none_witness :
    (StorageInfo.mk "".data Option.none Option.none).has_space 5 = Except.error PyErr.typeError ∧
    (StorageInfo.mk "bootflash".data (some 1000000) (some 2000000)).has_space 1000000 =
      Except.ok true := by
  constructor
  · exact (has_space_none_type_error).1 "".data Option.none 5
  · exact (has_space_none_type_error).2 _ 1000000 1000000 rfl

/-- C2 counterexample: `"0.3.4"` matches the IOS-XE grammar
`MAJOR.MINOR.PATCH[LETTER]` (captured groups 0, 3, 4, no letter), yet
`parse_version` returns an absent value rather than an `IOSXEVersion`
with `major > 0` and `major` equal to the captured group. -/
theorem parse_version_zero_major_counterexample :
    iosxeMatch "0.3.4".data = some (0, 3, 4, []) ∧
    parse_version "0.3.4".data = Option.none := by
  exact ⟨by decide, by decide⟩

/-- C2 (amended): for every raw string matching the IOS-XE grammar whose
MAJOR group has nonzero integer value, `parse_version` returns an
`IOSXEVersion` with `major > 0` whose major/minor/patch/rebuild_letter
equal the captured groups. -/
theorem parse_version_iosxe_grammar_amended (s : List Char) (ma mi pa : Nat) (rl : List Char)
    (h : iosxeMatch s = some (ma, mi, pa, rl)) (hma : ma ≠ 0) :
    parse_version s = some (OSVersion.iosxe (IOSXEVersion.init s)) ∧
    0 < (IOSXEVersion.init s).major ∧
    (IOSXEVersion.init s).major = ma ∧
    (IOSXEVersion.init s).minor = mi ∧
    (IOSXEVersion.init s).patch = pa ∧
    (IOSXEVersion.init s).rebuild_letter = rl := by
  have hinit : IOSXEVersion.init s = ⟨s, ma, mi, pa, rl, InstallMode.UNKNOWN⟩ := by
    unfold IOSXEVersion.init
    rw [h]
  refine ⟨?_, ?_, ?_, ?_, ?_, ?_⟩ <;> simp [parse_version, hinit, hma, Nat.pos_of_ne_zero]

/-- Witness for C2 at `"17.3.4a"`: the grammar matches with nonzero major
and the parsed fields are 17, 3, 4, "a". -/
theorem parse_version_iosxe_grammar_witness :
    parse_version "17.3.4a".data = some (OSVersion.iosxe (IOSXEVersion.init "17.3.4a".data)) ∧
    (IOSXEVersion.init "17.3.4a".data).major = 17 ∧
    (IOSXEVersion.init "17.3.4a".data).minor = 3 ∧
    (IOSXEVersion.init "17.3.4a".data).patch = 4 ∧
    (IOSXEVersion.init "17.3.4a".data).rebuild_letter = ['a'] := by
  have h := parse_version_iosxe_grammar_amended "17.3.4a".data 17 3 4 ['a']
    (by decide) (by decide)
  exact ⟨h.1, h.2.2.1, h.2.2.2.1, h.2.2.2.2.1, h.2.2.2.2.2⟩

/-- C4: the dispatcher tries the IOS-XE grammar first, then NX-OS, returns
the first result with nonzero major, returns an absent value when neither
matches, and never returns a version object whose major equals 0. -/
theorem parse_version_dispatch_order (raw : List Char) :
    (∀ v, parse_version raw = some v → v.major ≠ 0) ∧
    ((IOSXEVersion.init raw).major ≠ 0 →
       parse_version raw = some (OSVersion.iosxe (IOSXEVersion.init raw))) ∧
    ((IOSXEVersion.init raw).major = 0 → (NXOSVersion.init raw).major ≠ 0 →
       parse_version raw = some (OSVersion.nxos (NXOSVersion.init raw))) ∧
    ((IOSXEVersion.init raw).major = 0 → (NXOSVersion.init raw).major = 0 →
       parse_version raw = Option.none) := by
  refine ⟨?_, ?_, ?_, ?_⟩
  · intro v hv
    simp only [parse_version] at hv
    split_ifs at hv with hx hn
    · cases hv
      simpa [OSVersion.major] using hx
    · cases hv
      simpa [OSVersion.major] using hn
  · intro hx
    simp [parse_version, hx]
  · intro hx hn
    simp [parse_version, hx, hn]
  · intro hx hn
    simp [parse_version, hx, hn]

/-- Witness for C4: `"not-a-version"` matches neither grammar, so the
dispatcher returns an absent value; and at `"9.3(10)"` the IOS-XE grammar
fails, the NX-OS one succeeds, so the NX-OS result is returned. -/
theorem parse_version_dispatch_witness :
    parse_version "not-a-version".data = Option.none ∧
    parse_version "9.3(10)".data = some (OSVersion.nxos (NXOSVersion.init "9.3(10)".data)) := by
  constructor
  · exact (parse_version_dispatch_order "not-a-version".data).2.2.2 (by decide) (by decide)
  · exact (parse_version_dispatch_order "9.3(10)".data).2.2.1 (by decide) (by decide)

/-- C5 counterexample: `"7.0(3)A5(2)"` does NOT match the train form — the
code's train group is the literal letter `I` followed by one digit, not an
arbitrary uppercase letter — and the simple form fails too, so every field
stays at the zero/empty sentinel instead of the train-form parse the claim
describes. -/
theorem nxos_train_letter_counterexample :
    nxosTrainMatch "7.0(3)A5(2)".data = Option.none ∧
    (NXOSVersion.init "7.0(3)A5(2)".data).major = 0 ∧
    (NXOSVersion.init "7.0(3)A5(2)".data).train = [] := by
  exact ⟨by decide, by decide, by decide⟩

/-- C5 (amended): NX-OS parsing tries the train form
`MAJOR.MINOR(MAINT)TRAIN[(REBUILD)]` first, where TRAIN is the literal
letter `I` followed by one digit and REBUILD defaults to 0 when absent;
only if the train form does not match is the simple form tried, and on no
match all numeric fields remain zero and string fields remain empty.
`"7.0(3)I7(9)"` matches the train form; `"7.0(3)I7"` gets rebuild 0. -/
theorem nxos_parse_order_amended :
    (∀ (s : List Char) (ma mi mnt : Nat) (tr : List Char) (rb : Option Nat),
       nxosTrainMatch s = some (ma, mi, mnt, tr, rb) →
       NXOSVersion.init s = ⟨s, ma, mi, mnt, tr, rb.getD 0, [], InstallMode.NA⟩) ∧
    (∀ (s : List Char) (ma mi mnt : Nat) (suf : List Char),
       nxosTrainMatch s = Option.none →
       nxosSimpleMatch s = some (ma, mi, mnt, suf) →
       NXOSVersion.init s = ⟨s, ma, mi, mnt, [], 0, suf, InstallMode.NA⟩) ∧
    (∀ s : List Char,
       nxosTrainMatch s = Option.none → nxosSimpleMatch s = Option.none →
       NXOSVersion.init s = ⟨s, 0, 0, 0, [], 0, [], InstallMode.NA⟩) ∧
    nxosTrainMatch "7.0(3)I7(9)".data = some (7, 0, 3, ['I', '7'], some 9) ∧
    (NXOSVersion.init "7.0(3)I7".data).rebuild = 0 := by
  refine ⟨?_, ?_, ?_, by decide, by decide⟩
  · intro s ma mi mnt tr rb h
    unfold NXOSVersion.init
    rw [h]
  · intro s ma mi mnt suf h1 h2
    unfold NXOSVersion.init
    rw [h1, h2]
  · intro s h1 h2
    unfold NXOSVersion.init
    rw [h1, h2]

/-- Witness for C5: the train form wins on `"7.0(3)I7(9)"` (fields
7, 0, 3, "I7", 9) and the simple form is used for `"9.3(10)"`. -/
theorem nxos_parse_order_witness :
    NXOSVersion.init "7.0(3)I7(9)".data
      = ⟨"7.0(3)I7(9)".data, 7, 0, 3, ['I', '7'], 9, [], InstallMode.NA⟩ ∧
    NXOSVersion.init "9.3(10)".data
      = ⟨"9.3(10)".data, 9, 3, 10, [], 0, [], InstallMode.NA⟩ := by
  constructor
  · exact nxos_parse_order_amended.1 "7.0(3)I7(9)".data 7 0 3 ['I', '7'] (some 9) (by decide)
  · exact nxos_parse_order_amended.2.1 "9.3(10)".data 9 3 10 [] (by decide) (by decide)

/-- C6: within a variant, `is_newer_than` is the lexicographic tuple
comparison over the variant's ordered fields and is transitive; in
particular `NXOSVersion("9.3(10)").is_newer_than(NXOSVersion("9.3(9)"))`. -/
theorem is_newer_than_lex_transitive :
    (∀ a b c : IOSXEVersion, a.is_newer_than b = true → b.is_newer_than c = true →
       a.is_newer_than c = true) ∧
    (∀ a b c : NXOSVersion, a.is_newer_than b = true → b.is_newer_than c = true →
       a.is_newer_than c = true) ∧
    (NXOSVersion.init "9.3(10)".data).is_newer_than (NXOSVersion.init "9.3(9)".data) = true := by
  refine ⟨?_, ?_, by decide⟩
  · intro a b c h1 h2
    simp only [IOSXEVersion.is_newer_than] at h1 h2 ⊢
    exact decide_eq_true
      (iosxeCmp_lawful.2.2 _ _ _ (of_decide_eq_true h1) (of_decide_eq_true h2))
  · intro a b c h1 h2
    simp only [NXOSVersion.is_newer_than] at h1 h2 ⊢
    exact decide_eq_true
      (nxosCmp_lawful.2.2 _ _ _ (of_decide_eq_true h1) (of_decide_eq_true h2))

/-- Witness for C6: transitivity applied at concrete versions of both
families, e.g. 17.4.1 > 17.3.4a > 17.3.4 gives 17.4.1 > 17.3.4. -/
theorem is_newer_than_lex_witness :
    (IOSXEVersion.init "17.4.1".data).is_newer_than (IOSXEVersion.init "17.3.4".data) = true ∧
    (NXOSVersion.init "9.3(10)".data).is_newer_than
      (NXOSVersion.init "7.0(3)I7(9)".data) = true := by
  constructor
  · exact is_newer_than_lex_transitive.1 (IOSXEVersion.init "17.4.1".data)
      (IOSXEVersion.init "17.3.4a".data) (IOSXEVersion.init "17.3.4".data)
      (by decide) (by decide)
  · exact is_newer_than_lex_transitive.2.1 (NXOSVersion.init "9.3(10)".data)
      (NXOSVersion.init "9.3(9)".data) (NXOSVersion.init "7.0(3)I7(9)".data)
      (by decide) (by decide)

/-- C7 counterexample: `"a.conf "` (trailing blank) does not end in
`".conf"` or `".bin"` even case-insensitively, so the claim classifies it
UNKNOWN, but the code strips whitespace first and classifies it INSTALL. -/
theorem set_install_mode_strip_counterexample :
    endsWithCI "a.conf ".data ".conf".data = false ∧
    endsWithCI "a.conf ".data ".bin".data = false ∧
    ((IOSXEVersion.init "17.3.4".data).set_install_mode "a.conf ".data).install_mode =
      InstallMode.INSTALL := by
  exact ⟨by decide, by decide, by decide⟩

/-- C7 (amended): for every image-name string, IOS-XE `set_install_mode`
classifies the name by case-insensitive suffix after discarding surrounding
whitespace — `.conf` gives INSTALL, else `.bin` gives BUNDLE, anything else
(including the empty string) gives UNKNOWN — and NX-OS `set_install_mode`
sets NA regardless of input. -/
theorem set_install_mode_classification_amended :
    (∀ (v : IOSXEVersion) (img : List Char),
       (endsWithCI (pyStrip img) ".conf".data = true →
          (v.set_install_mode img).install_mode = InstallMode.INSTALL) ∧
       (endsWithCI (pyStrip img) ".conf".data = false →
        endsWithCI (pyStrip img) ".bin".data = true →
          (v.set_install_mode img).install_mode = InstallMode.BUNDLE) ∧
       (endsWithCI (pyStrip img) ".conf".data = false →
        endsWithCI (pyStrip img) ".bin".data = false →
          (v.set_install_mode img).install_mode = InstallMode.UNKNOWN)) ∧
    (∀ (v : NXOSVersion) (img : List Char),
       (v.set_install_mode img).install_mode = InstallMode.NA) := by
  constructor
  · intro v img
    have hc : endsWithCI (pyStrip img) ".conf".data
        = List.isSuffixOf ".conf".data (pyLower (pyStrip img)) := rfl
    have hb : endsWithCI (pyStrip img) ".bin".data
        = List.isSuffixOf ".bin".data (pyLower (pyStrip img)) := rfl
    refine ⟨fun h => ?_, fun h1 h2 => ?_, fun h1 h2 => ?_⟩
    · rw [hc] at h
      simp [IOSXEVersion.set_install_mode, h]
    · rw [hc] at h1
      rw [hb] at h2
      simp [IOSXEVersion.set_install_mode, h1, h2]
    · rw [hc] at h1
      rw [hb] at h2
      simp [IOSXEVersion.set_install_mode, h1, h2]
  · intro v img
    rfl

/-- Witness for C7: the spec's own examples, plus an NX-OS input. -/
theorem set_install_mode_classification_witness :
    ((IOSXEVersion.init "17.3.4".data).set_install_mode
        "cat9k_iosxe.17.03.04a.SPA.conf".data).install_mode = InstallMode.INSTALL ∧
    ((IOSXEVersion.init "17.3.4".data).set_install_mode "isr4300.bin".data).install_mode =
      InstallMode.BUNDLE ∧
    ((IOSXEVersion.init "17.3.4".data).set_install_mode "".data).install_mode =
      InstallMode.UNKNOWN ∧
    ((NXOSVersion.init "9.3(10)".data).set_install_mode "anything.bin".data).install_mode =
      InstallMode.NA := by
  refine ⟨?_, ?_, ?_, ?_⟩
  · exact (set_install_mode_classification_amended.1 _ _).1 (by decide)
  · exact (set_install_mode_classification_amended.1 _ _).2.1 (by decide) (by decide)
  · exact (set_install_mode_classification_amended.1 _ _).2.2 (by decide) (by decide)
  · exact set_install_mode_classification_amended.2 _ _

theorem buildStorage2_raises (st : DeviceState) (nm : Except PyErr (List Char))
    (free total : Except PyErr Int)
    (hfail : (∃ e, free = Except.error e) ∨ (∃ e, total = Except.error e)) :
    ∃ e, buildStorage2 st nm free total = (st, DiscOutcome.raised e) := by
  cases nm with
  | error e => exact ⟨e, rfl⟩
  | ok name =>
    cases free with
    | error e => exact ⟨e, rfl⟩
    | ok f =>
      cases total with
      | error e => exact ⟨e, rfl⟩
      | ok t =>
        rcases hfail with ⟨e, he⟩ | ⟨e, he⟩ <;> exact Except.noConfusion he

theorem storageStage_nxos_red (st : DeviceState) (fam : List Char) (sRaw : List Char)
    (jl : List Char → Option PyVal) (hfam : fam = "NX-OS".data) :
    storageStage st fam (PyVal.vstr sRaw) jl
    = (match jl (pyStrip sRaw) with
       | Option.none => (st, DiscOutcome.stopped)
       | some record => buildStorage st fam record) := by
  subst hfam
  rfl

theorem storageStage_other_red (st : DeviceState) (fam : List Char) (storRaw : PyVal)
    (jl : List Char → Option PyVal) (hfam : ¬ (fam = "NX-OS".data)) :
    storageStage st fam storRaw jl
    = buildStorage st fam (_safe_get storRaw [PyKey.ki 0] PyVal.vnone) := by
  simp only [storageStage, if_neg hfam]

theorem storageStage_ios_raises (st : DeviceState) (es : List (PyKey × PyVal))
    (jl : List Char → Option PyVal)
    (hfail : (∃ e, pyIntOf (_safe_get (PyVal.vdict es) [PyKey.ks "total_free".data] PyVal.vnone)
        = Except.error e) ∨
      (∃ e, pyIntOf (_safe_get (PyVal.vdict es) [PyKey.ks "total_size".data] PyVal.vnone)
        = Except.error e)) :
    ∃ e, storageStage st "IOS-XE".data (PyVal.vlist [PyVal.vdict es]) jl
      = (st, DiscOutcome.raised e) := by
  obtain ⟨e, he⟩ := buildStorage2_raises st
    (pySplitColonHead (_safe_get (PyVal.vdict es) [PyKey.ks "file_system".data] PyVal.vnone))
    (pyIntOf (_safe_get (PyVal.vdict es) [PyKey.ks "total_free".data] PyVal.vnone))
    (pyIntOf (_safe_get (PyVal.vdict es) [PyKey.ks "total_size".data] PyVal.vnone)) hfail
  exact ⟨e, he⟩

theorem storageStage_nxos_raises (st : DeviceState) (es : List (PyKey × PyVal))
    (sRaw : List Char) (jl : List Char → Option PyVal)
    (hjson : jl (pyStrip sRaw) = some (PyVal.vdict es))
    (hfail : (∃ e, pyIntOf (_safe_get (PyVal.vdict es) [PyKey.ks "bytesfree".data] PyVal.vnone)
        = Except.error e) ∨
      (∃ e, pyIntOf (_safe_get (PyVal.vdict es) [PyKey.ks "bytestotal".data] PyVal.vnone)
        = Except.error e)) :
    ∃ e, storageStage st "NX-OS".data (PyVal.vstr sRaw) jl
      = (st, DiscOutcome.raised e) := by
  obtain ⟨e, he⟩ := buildStorage2_raises st
    (pySplitColonHead (_safe_get (PyVal.vdict es) [PyKey.ks "usage".data] PyVal.vnone))
    (pyIntOf (_safe_get (PyVal.vdict es) [PyKey.ks "bytesfree".data] PyVal.vnone))
    (pyIntOf (_safe_get (PyVal.vdict es) [PyKey.ks "bytestotal".data] PyVal.vnone)) hfail
  refine ⟨e, ?_⟩
  rw [storageStage_nxos_red st _ sRaw jl rfl, hjson]
  exact he

/-- C1: the claim says discovery never raises on merely-missing data, and
that with both the `os` and `version` keys absent the family-dependent
steps are skipped without error; but on the record `[{"hostname": "R1"}]`
the code reaches `parse_version(None)` and `re.match` raises an uncaught
`TypeError` — contradicting `auto_discovery`'s own docstring
("Logs errors instead of raising"). The earlier assignments (hostname)
are retained. -/
theorem auto_discovery_missing_os_key_raises :
    auto_discovery initDeviceState
      (PyVal.vlist [PyVal.vdict [(PyKey.ks "hostname".data, PyVal.vstr "R1".data)]])
      PyVal.vnone (fun _ => Option.none)
    = (⟨PyVal.vstr "R1".data, PyVal.vnone, PyVal.vnone, PyVal.vnone, Option.none, Option.none⟩,
       DiscOutcome.raised PyErr.typeError) := rfl

/-- C8: the storage-building `int(...)` coercions are unguarded — for both
families, any storage record whose byte-count field fails integer
conversion (missing, `None`, or unparseable) makes the run end in an
uncaught error, while every snapshot field assigned by the earlier
version stage keeps its value. -/
theorem storage_int_coercion_unguarded :
    (∀ (st : DeviceState) (es : List (PyKey × PyVal)) (jl : List Char → Option PyVal),
       ((∃ e, pyIntOf (_safe_get (PyVal.vdict es) [PyKey.ks "total_free".data] PyVal.vnone)
           = Except.error e) ∨
        (∃ e, pyIntOf (_safe_get (PyVal.vdict es) [PyKey.ks "total_size".data] PyVal.vnone)
           = Except.error e)) →
       ∃ e, auto_discovery st verRecordIOS (PyVal.vlist [PyVal.vdict es]) jl
         = (postVersionIOS st, DiscOutcome.raised e)) ∧
    (∀ (st : DeviceState) (es : List (PyKey × PyVal)) (sRaw : List Char)
       (jl : List Char → Option PyVal),
       jl (pyStrip sRaw) = some (PyVal.vdict es) →
       ((∃ e, pyIntOf (_safe_get (PyVal.vdict es) [PyKey.ks "bytesfree".data] PyVal.vnone)
           = Except.error e) ∨
        (∃ e, pyIntOf (_safe_get (PyVal.vdict es) [PyKey.ks "bytestotal".data] PyVal.vnone)
           = Except.error e)) →
       ∃ e, auto_discovery st verRecordNX (PyVal.vstr sRaw) jl
         = (postVersionNX st, DiscOutcome.raised e)) := by
  constructor
  · intro st es jl hfail
    obtain ⟨e, hs⟩ := storageStage_ios_raises (postVersionIOS st) es jl hfail
    refine ⟨e, ?_⟩
    have hver : versionStage st verRecordIOS
        = StageResult.proceed (postVersionIOS st) "IOS-XE".data := rfl
    simp only [auto_discovery, hver]
    exact hs
  · intro st es sRaw jl hjson hfail
    obtain ⟨e, hs⟩ := storageStage_nxos_raises (postVersionNX st) es sRaw jl hjson hfail
    refine ⟨e, ?_⟩
    have hver : versionStage st verRecordNX
        = StageResult.proceed (postVersionNX st) "NX-OS".data := rfl
    simp only [auto_discovery, hver]
    exact hs

/-- Witness for C8: a storage record whose `total_free` is the
unparseable string `"abc"` ends the IOS-XE run in an uncaught error with
the version-stage fields still populated. -/
theorem storage_int_coercion_witness :
    ∃ e, auto_discovery initDeviceState verRecordIOS
        (PyVal.vlist [PyVal.vdict [(PyKey.ks "file_system".data, PyVal.vstr "bootflash:".data),
          (PyKey.ks "total_free".data, PyVal.vstr "abc".data)]])
        (fun _ => Option.none)
      = (postVersionIOS initDeviceState, DiscOutcome.raised e) :=
  storage_int_coercion_unguarded.1 initDeviceState
    [(PyKey.ks "file_system".data, PyVal.vstr "bootflash:".data),
     (PyKey.ks "total_free".data, PyVal.vstr "abc".data)]
    (fun _ => Option.none) (Or.inl ⟨PyErr.valueError, rfl⟩)

/-- C9: a run whose version stage succeeded and whose storage stage then
stops (storage command failure / NX-OS JSON decode failure / non-mapping
storage record) ends with exactly the state the version stage assigned:
hostname, config_register, model, serial, os and its install_mode keep
their assigned values; nothing is rolled back. -/
theorem discovery_failure_preserves_fields
    (st st1 : DeviceState) (fam : List Char) (verRaw storRaw : PyVal)
    (jl : List Char → Option PyVal)
    (hver : versionStage st verRaw = StageResult.proceed st1 fam)
    (hfail :
      (fam = "NX-OS".data ∧
        ((∀ s, storRaw ≠ PyVal.vstr s) ∨
         (∃ s, storRaw = PyVal.vstr s ∧ jl (pyStrip s) = Option.none) ∨
         (∃ s r, storRaw = PyVal.vstr s ∧ jl (pyStrip s) = some r ∧ isDict r = false))) ∨
      (fam ≠ "NX-OS".data ∧ isDict (_safe_get storRaw [PyKey.ki 0] PyVal.vnone) = false)) :
    auto_discovery st verRaw storRaw jl = (st1, DiscOutcome.stopped) := by
  simp only [auto_discovery, hver]
  rcases hfail with ⟨hfam, hcase⟩ | ⟨hfam, hrec⟩
  · rcases hcase with hnostr | ⟨s, hs, hj⟩ | ⟨s, r, hs, hj, hnd⟩
    · subst hfam
      cases storRaw with
      | vstr s => exact absurd rfl (hnostr s)
      | vnone => rfl
      | vint n => rfl
      | vlist xs => rfl
      | vdict es => rfl
    · subst hs
      rw [storageStage_nxos_red st1 fam s jl hfam, hj]
    · subst hs
      rw [storageStage_nxos_red st1 fam s jl hfam, hj]
      subst hfam
      cases r with
      | vdict es => simp [isDict] at hnd
      | vnone => rfl
      | vint n => rfl
      | vstr s2 => rfl
      | vlist xs => rfl
  · rw [storageStage_other_red st1 fam storRaw jl hfam]
    cases hr : _safe_get storRaw [PyKey.ki 0] PyVal.vnone with
    | vdict es =>
      rw [hr] at hrec
      simp [isDict] at hrec
    | vnone => rfl
    | vint n => rfl
    | vstr s => rfl
    | vlist xs => rfl

/-- Witness for C9: the storage command fails (returns `None`) after a
successful IOS-XE version stage; the run stops with the version-stage
fields intact. -/
theorem discovery_failure_preserves_witness :
    auto_discovery initDeviceState verRecordIOS PyVal.vnone (fun _ => Option.none)
      = (postVersionIOS initDeviceState, DiscOutcome.stopped) :=
  discovery_failure_preserves_fields initDeviceState (postVersionIOS initDeviceState)
    "IOS-XE".data verRecordIOS PyVal.vnone (fun _ => Option.none) rfl
    (Or.inr ⟨by decide, rfl⟩)
